import Mathlib

/-!
# ax: state glue (`src/core/core.c`) and SDL backend (`backend/SDL.c`)

A shallow embedding of the control/state object of the `ax` UI runtime and of
its SDL backend.  C functions become Lean functions over explicit state.
Calls into code that lives outside the two translated files (libc, SDL,
SDL_ttf, the async module) are recorded, in program order, in a list of
`Call`s; their results are supplied by explicit environment records.
A failed `ASSERT` ends the run with `Outcome.fatal`.
-/

namespace Ax

/-! ## Data model -/

/-- Modelled from the spec: the `ASSERT(cond, fmt, ...)` macro (utils.h is
not among the sources) is a fatal assertion, which "deliberately terminates"
the process with a diagnostic.  A C function therefore either returns a value
to its caller (`ret`) or aborts through a failed `ASSERT` (`fatal`), whose
format string and string arguments are kept. -/
inductive Outcome (α : Type) where
  | ret (a : α)
  | fatal (fmt : String) (args : List (Option String))
deriving DecidableEq

/-- Modelled from the spec: `struct ax_dim` (ax.h is not among the sources),
the "width/height pair".  The sizes that flow through the translated code are
C `int`s (`SDL_GetWindowSize`, `AX_DIM(800, 600)`), so the two lengths are
integers here. -/
structure ax_dim where
  w : Int
  h : Int
deriving DecidableEq

/-- Modelled from the spec: the tag of a backend event, `be->ty` (backend.h
is not among the sources): the "tagged variant Close | Resize", under the two
names the sources use. -/
inductive ax_backend_evt_type where
  | AX_BEVT_CLOSE
  | AX_BEVT_RESIZE
deriving DecidableEq

/-- Modelled from the spec: `struct ax_backend_evt` (backend.h is not among
the sources), with the two fields the sources write: the tag `ty` and the size
`resize_dim` carried by a resize.  Functions that fill one through a pointer
take the old value and return the new one. -/
structure ax_backend_evt where
  ty : ax_backend_evt_type
  resize_dim : ax_dim
deriving DecidableEq

/-- The backend object, `struct ax_backend` of SDL.c.  The two SDL handles are
nullable pointers; `prev_w`, `prev_h` hold the last-known window size. -/
structure ax_backend where
  window : Option Nat
  render : Option Nat
  prev_w : Int
  prev_h : Int
deriving DecidableEq

/-- Modelled from the spec: `struct ax_tree` (tree.h is not among the
sources).  The core "only needs: is this tree empty, and take ownership of
this tree"; a tree is the list of its node identifiers. -/
structure ax_tree where
  nodes : List Nat
deriving DecidableEq

/-- Modelled from the spec: `struct ax_async` (async.h is not among the
sources), the slots the render loop reads: the backend handed over by
`set_backend`, the current dimensions, the current tree, and the write end of
the wake-up pipe. -/
structure ax_async where
  backend : Option ax_backend
  dim : ax_dim
  tree : ax_tree
  evt_write_fd : Int
deriving DecidableEq

/-- The runtime state, `struct ax_state` (declared in core.h, which is not
among the sources), with the fields core.c and SDL.c read or write.
`win_size` is `config.win_size`, `interp_err_msg` is `interp->err_msg`;
pointers that may be `NULL` are options. -/
structure ax_state where
  err_msg : Option String
  win_size : ax_dim
  backend : Option ax_backend
  evt_read_fd : Int
  evt_write_fd : Int
  interp_err_msg : Option String
  tree : ax_tree
  async : ax_async
deriving DecidableEq

/-- The functions of the async and tree modules that core.c calls and whose
bodies are not among the sources.  They are parameters of the embedding. -/
structure async_ops where
  ax__init_tree : ax_tree
  ax__init_async : ax_tree → Int → ax_async
  ax__async_set_backend : ax_async → Option ax_backend → ax_async
  ax__async_set_dim : ax_async → ax_dim → ax_async
  ax__async_set_tree : ax_async → ax_tree → ax_async × ax_tree
  ax__is_tree_empty : ax_tree → Bool

/-- A call that leaves the translated code, in the order the C code makes it. -/
inductive Call where
  | close (fd : Int)
  | read (fd : Int) (count : Nat)
  | printf (text : String)
  | free (what : String)
  | ax__async_pop_bevt
  | ax__free_async
  | ax__free_geom
  | ax__free_tree
  | ax__free_interp
  | ax__free_lexer
  | ax__async_set_backend (bac : Option ax_backend)
  | ax__async_set_dim (dim : ax_dim)
  | ax__async_set_tree (tree : ax_tree)
  | SDL_Init
  | TTF_Init
  | SDL_CreateWindowAndRenderer (w h : Int)
  | SDL_SetRenderDrawBlendMode
  | SDL_DestroyRenderer
  | SDL_DestroyWindow
  | TTF_Quit
  | SDL_Quit
  | TTF_OpenFont (path : List Char) (ptsize : Int)
deriving DecidableEq

/-! ## core.c -/

/-- What the C library and the module initialisers hand to `ax_new_state`:
whether `malloc` succeeds, the return value of `pipe` and the two descriptors
it stores, `strerror(errno)`, and `interp->err_msg` as `ax__init_interp`
leaves it. -/
structure new_state_env where
  malloc_ok : Bool
  pipe_rv : Int
  evt_fds : Int × Int
  strerror : String
  init_interp_err_msg : Option String

/-- `ax_new_state` (core.c 16-61). -/
def ax_new_state (ops : async_ops) (env : new_state_env) : Outcome ax_state :=
  if !env.malloc_ok then .fatal "malloc ax_state" []
  else if env.pipe_rv ≠ 0 then .fatal "pipe creation failed: %s" [some env.strerror]
  else
    let tree := ops.ax__init_tree
    .ret {
      err_msg := none
      win_size := ⟨800, 600⟩
      backend := none
      evt_read_fd := env.evt_fds.1
      evt_write_fd := env.evt_fds.2
      interp_err_msg := env.init_interp_err_msg
      tree := tree
      async := ops.ax__init_async tree env.evt_fds.2 }

/-- `free_backend` (SDL.c 17-27): the SDL calls it makes. -/
def free_backend (b : ax_backend) : List Call :=
  (if b.render.isSome then [Call.SDL_DestroyRenderer] else []) ++
  (if b.window.isSome then [Call.SDL_DestroyWindow] else []) ++
  [Call.TTF_Quit, Call.SDL_Quit]

/-- `ax__destroy_backend` (SDL.c 70-75). -/
def ax__destroy_backend : Option ax_backend → List Call
  | none => []
  | some bac => free_backend bac

/-- `ax_destroy_state` (core.c 63-81): the calls it makes, in order.  The
argument is the nullable state pointer. -/
def ax_destroy_state : Option ax_state → List Call
  | none => []
  | some s =>
    [Call.close s.evt_write_fd,
     Call.close s.evt_read_fd,
     Call.ax__free_async,
     Call.ax__free_geom,
     Call.ax__free_tree,
     Call.ax__free_interp,
     Call.ax__free_lexer] ++
    ax__destroy_backend s.backend ++
    [Call.free "err_msg", Call.free "ax_state"]

/-- `ax__set_error` (core.c 93-99).  `malloc_ok` tells whether the `malloc`
of the copy succeeds. -/
def ax__set_error (malloc_ok : Bool) (s : ax_state) (err : String) : Outcome ax_state :=
  if malloc_ok then .ret { s with err_msg := some err }
  else .fatal "malloc ax_state.err_msg" []

/-- `ax_get_error` (core.c 124-133). -/
def ax_get_error (s : ax_state) : Option String :=
  if s.err_msg.isSome then s.err_msg
  else if s.interp_err_msg.isSome then s.interp_err_msg
  else none

/-- The `for (;;)` loop of `ax_wait_for_close` (core.c 105-121), run against
the results of the successive `ax__async_pop_bevt` calls (`none` is a pop that
found the queue empty).  Returns the calls made, the value returned (`none`
when every listed pop was consumed and the loop is still waiting), and the pop
results not consumed. -/
def wait_loop (evt_read_fd : Int) :
    List (Option ax_backend_evt) → List Call × Option Int × List (Option ax_backend_evt)
  | [] => ([], none, [])
  | none :: rest =>
    let r := wait_loop evt_read_fd rest
    (Call.ax__async_pop_bevt :: Call.read evt_read_fd 1 :: r.1, r.2)
  | some e :: rest =>
    match e.ty with
    | .AX_BEVT_CLOSE => ([Call.ax__async_pop_bevt, Call.printf "bye!\n"], some 0, rest)
    | _ =>
      let r := wait_loop evt_read_fd rest
      (Call.ax__async_pop_bevt :: r.1, r.2)

/-- `ax_wait_for_close` (core.c 101-122).  The second component is `none`
while the call has not returned. -/
def ax_wait_for_close (s : ax_state) (pops : List (Option ax_backend_evt)) :
    List Call × Option (Outcome Int) × List (Option ax_backend_evt) :=
  if s.backend.isNone then ([], some (.fatal "backend must be initialized!" []), pops)
  else
    let r := wait_loop s.evt_read_fd pops
    (r.1, r.2.1.map Outcome.ret, r.2.2)

/-- `ax__set_dim` (core.c 178-181). -/
def ax__set_dim (ops : async_ops) (s : ax_state) (dim : ax_dim) : ax_state :=
  { s with async := ops.ax__async_set_dim s.async dim }

/-- `ax__set_tree` (core.c 183-187): the calls made, and either the new
state together with the caller's tree as the hand-off left it, or the failed
assertion. -/
def ax__set_tree (ops : async_ops) (s : ax_state) (new_tree : ax_tree) :
    List Call × Outcome (ax_state × ax_tree) :=
  let r := ops.ax__async_set_tree s.async new_tree
  ([Call.ax__async_set_tree new_tree],
    if ops.ax__is_tree_empty r.2 then .ret ({ s with async := r.1 }, r.2)
    else .fatal "tree should be empty after setting" [])

/-! ## SDL.c -/

/-- What SDL and SDL_ttf answer during `ax__new_backend`: the return values
of the four fallible calls, the handles `SDL_CreateWindowAndRenderer` stores
in `b.window` and `b.render`, the two library error strings, and whether the
`malloc` inside `ax__set_error` succeeds. -/
structure backend_env where
  SDL_Init : Int
  TTF_Init : Int
  SDL_CreateWindowAndRenderer : Int
  window : Option Nat
  render : Option Nat
  SDL_SetRenderDrawBlendMode : Int
  SDL_GetError : String
  TTF_GetError : String
  malloc_ok : Bool

/-- The labels `ttf_err`/`sdl_err`/`err` of `ax__new_backend` (SDL.c 60-67):
record `msg`, tear `b` down, return 1 with the out pointer as it was. -/
def new_backend_err (malloc_ok : Bool) (ax : ax_state) (out_bac : Option ax_backend)
    (b : ax_backend) (msg : String) (calls : List Call) :
    List Call × Outcome (Int × ax_state × Option ax_backend) :=
  match ax__set_error malloc_ok ax msg with
  | .fatal fmt args => (calls, .fatal fmt args)
  | .ret ax1 => (calls ++ free_backend b, .ret (1, ax1, out_bac))

/-- `ax__new_backend` (SDL.c 29-68).  `out_bac` is the value `*out_bac` holds
on entry; the result gives the calls made and, when the function returns, its
return value, the state and the value of `*out_bac` on exit.  `ALLOCATE`
yields the cell the new backend is copied into, so on success `*out_bac` is a
non-null pointer to that copy.  The `(int)` casts of the configured window
size are the identity on the integer lengths used here. -/
def ax__new_backend (env : backend_env) (ax : ax_state) (out_bac : Option ax_backend) :
    List Call × Outcome (Int × ax_state × Option ax_backend) :=
  let b : ax_backend := { window := none, render := none, prev_w := -999, prev_h := -999 }
  if env.SDL_Init ≠ 0 then
    new_backend_err env.malloc_ok ax out_bac b env.SDL_GetError [Call.SDL_Init]
  else if env.TTF_Init ≠ 0 then
    new_backend_err env.malloc_ok ax out_bac b env.TTF_GetError [Call.SDL_Init, Call.TTF_Init]
  else
    let calls := [Call.SDL_Init, Call.TTF_Init,
      Call.SDL_CreateWindowAndRenderer ax.win_size.w ax.win_size.h]
    let b1 : ax_backend := { b with window := env.window, render := env.render }
    if env.SDL_CreateWindowAndRenderer ≠ 0 then
      new_backend_err env.malloc_ok ax out_bac b1 env.SDL_GetError calls
    else if env.SDL_SetRenderDrawBlendMode ≠ 0 then
      new_backend_err env.malloc_ok ax out_bac b1 env.SDL_GetError
        (calls ++ [Call.SDL_SetRenderDrawBlendMode])
    else
      (calls ++ [Call.SDL_SetRenderDrawBlendMode], .ret (0, ax, some b1))

/-- `ax__initialize_backend` (core.c 83-91).  `&s->backend` is the out
pointer handed to `ax__new_backend`, so the value written there is stored
back into the state. -/
def ax__initialize_backend (ops : async_ops) (env : backend_env) (s : ax_state) :
    List Call × Outcome ax_state :=
  if s.backend.isSome then ([], .fatal "backend already initialized" [])
  else
    match ax__new_backend env s s.backend with
    | (calls, .fatal fmt args) => (calls, .fatal fmt args)
    | (calls, .ret (r, s1, out)) =>
      let s2 : ax_state := { s1 with backend := out }
      if r ≠ 0 then (calls, .fatal "create backend: %s" [ax_get_error s2])
      else
        (calls ++ [Call.ax__async_set_backend s2.backend, Call.ax__async_set_dim s2.win_size],
          .ret { s2 with
            async := ops.ax__async_set_dim
              (ops.ax__async_set_backend s2.async s2.backend) s2.win_size })

/-- A raw SDL event: `se.type` and, for keyboard events, `se.key.keysym.sym`. -/
structure SDL_Event where
  type : Nat
  sym : Int
deriving DecidableEq

/-- `SDL_QUIT` of SDL_events.h. -/
def SDL_QUIT : Nat := 0x100

/-- `SDL_KEYDOWN` of SDL_events.h. -/
def SDL_KEYDOWN : Nat := 0x300

/-- `SDLK_q` of SDL_keycode.h, the character code of `q`. -/
def SDLK_q : Int := 113

/-- What SDL holds when `ax__poll_event` runs: the queue of pending raw
events, oldest first, and the size `SDL_GetWindowSize` reports. -/
structure SDL_world where
  queue : List SDL_Event
  win_w : Int
  win_h : Int
deriving DecidableEq

/-- The `while (SDL_PollEvent(&se))` loop of `ax__poll_event` (SDL.c 95-110):
whether it left through `goto close`, and the events still queued. -/
def poll_loop : List SDL_Event → Bool × List SDL_Event
  | [] => (false, [])
  | se :: rest =>
    if se.type = SDL_QUIT then (true, rest)
    else if se.type = SDL_KEYDOWN then
      if se.sym = SDLK_q then (true, rest) else poll_loop rest
    else poll_loop rest

/-- `ax__poll_event` (SDL.c 92-125): the returned flag, SDL afterwards, the
backend afterwards and `*be` afterwards. -/
def ax__poll_event (world : SDL_world) (bac : ax_backend) (be : ax_backend_evt) :
    Bool × SDL_world × ax_backend × ax_backend_evt :=
  let r := poll_loop world.queue
  let world1 : SDL_world := { world with queue := r.2 }
  if r.1 then
    (true, world1, bac, { be with ty := .AX_BEVT_CLOSE })
  else
    let w := world.win_w
    let h := world.win_h
    if w ≠ bac.prev_w ∨ h ≠ bac.prev_h then
      (true, world1, { bac with prev_w := w, prev_h := h },
        { ty := .AX_BEVT_RESIZE, resize_dim := ⟨w, h⟩ })
    else
      (false, world1, bac, be)

/-- The events on which the loop of `ax__poll_event` takes `goto close`
(SDL.c 97-102): `SDL_QUIT`, and `SDL_KEYDOWN` with the key `q`. -/
def quit_request (se : SDL_Event) : Bool :=
  se.type = SDL_QUIT || (se.type = SDL_KEYDOWN && se.sym = SDLK_q)

/-- Successive polling passes: `ax__poll_event` is called once per pass, on
what SDL holds at that pass, with the backend as the previous pass left it and
an event buffer holding `be`.  Gives, per pass, the returned flag and the
event buffer afterwards. -/
def poll_passes (be : ax_backend_evt) : ax_backend → List SDL_world → List (Bool × ax_backend_evt)
  | _, [] => []
  | bac, world :: rest =>
    let r := ax__poll_event world bac be
    (r.1, r.2.2.2) :: poll_passes be r.2.2.1 rest

/-- `strncmp(a, b, n)` of the C library on NUL-terminated strings, given as
the characters before the NUL. -/
def strncmp : List Char → List Char → Nat → Int
  | _, _, 0 => 0
  | [], [], _ + 1 => 0
  | [], _ :: _, _ + 1 => -1
  | _ :: _, [], _ + 1 => 1
  | a :: as, b :: bs, n + 1 =>
    if a = b then strncmp as bs n else (a.toNat : Int) - (b.toNat : Int)

/-- `isspace` in the C locale. -/
def isspace (c : Char) : Bool :=
  c = ' ' || c = '\t' || c = '\n' || c = '\x0b' || c = '\x0c' || c = '\r'

/-- `isdigit`. -/
def isdigit (c : Char) : Bool :=
  48 ≤ c.toNat && c.toNat ≤ 57

/-- The digit run read by `strtol`: the value accumulated so far and the text
after the last digit. -/
def strtol_digits : List Char → Nat → Nat × List Char
  | [], acc => (acc, [])
  | c :: cs, acc =>
    if isdigit c then strtol_digits cs (acc * 10 + (c.toNat - 48)) else (acc, c :: cs)

/-- `LONG_MAX` where `long` has 64 bits (LP64). -/
def LONG_MAX : Int := 2 ^ 63 - 1

/-- `LONG_MIN` where `long` has 64 bits (LP64). -/
def LONG_MIN : Int := -(2 ^ 63)

/-- `strtol(nptr, &endptr, 10)`: skip white space, read an optional sign and
a run of decimal digits; the value is clamped to the range of `long`.  With no
digit nothing is converted: the value is 0 and `endptr` is `nptr`.  Returns the
value and the text at `endptr`. -/
def strtol (nptr : List Char) : Int × List Char :=
  let s1 := nptr.dropWhile isspace
  let signed : Bool × List Char :=
    match s1 with
    | '-' :: t => (true, t)
    | '+' :: t => (false, t)
    | _ => (false, s1)
  match signed.2 with
  | [] => (0, nptr)
  | c :: _ =>
    if isdigit c then
      let d := strtol_digits signed.2 0
      let v : Int := if signed.1 then -(d.1 : Int) else (d.1 : Int)
      (max LONG_MIN (min LONG_MAX v), d.2)
    else (0, nptr)

/-- Conversion of a `long` argument to the `int` parameter `ptsize` of
`TTF_OpenFont`: reduction modulo `2^32` into the range of a 32-bit `int`. -/
def long_to_int (x : Int) : Int :=
  (x + 2 ^ 31) % 2 ^ 32 - 2 ^ 31

/-- What SDL_ttf answers during `ax__new_font`: the font `TTF_OpenFont`
returns for a path and point size (`none` is `NULL`), its error string, and
whether the `malloc` inside `ax__set_error` succeeds. -/
structure font_env where
  TTF_OpenFont : List Char → Int → Option Nat
  TTF_GetError : String
  malloc_ok : Bool

/-- `ax__new_font` (SDL.c 190-217).  `out_font` is the value `*out_font`
holds on entry; the result gives the calls made and, when the function
returns, its return value, the state and `*out_font` on exit.  The unused
argument `bac` is left out. -/
def ax__new_font (env : font_env) (ax : ax_state) (description : List Char)
    (out_font : Option Nat) : List Call × Outcome (Int × ax_state × Option Nat) :=
  let err : List Call → List Call × Outcome (Int × ax_state × Option Nat) := fun calls =>
    match ax__set_error env.malloc_ok ax "invalid font description" with
    | .fatal fmt args => (calls, .fatal fmt args)
    | .ret ax1 => (calls, .ret (1, ax1, out_font))
  if strncmp description "size:".toList 5 ≠ 0 then err []
  else
    let r := strtol (description.drop 5)
    let size := r.1
    let s := r.2
    if strncmp s ",path:".toList 6 ≠ 0 then err []
    else
      let path := s.drop 6
      let calls := [Call.TTF_OpenFont path (long_to_int size)]
      match env.TTF_OpenFont path (long_to_int size) with
      | none =>
        match ax__set_error env.malloc_ok ax env.TTF_GetError with
        | .fatal fmt args => (calls, .fatal fmt args)
        | .ret ax1 => (calls, .ret (1, ax1, out_font))
      | some f => (calls, .ret (0, ax, some f))

/-! ## Concrete inputs used by the closed statements -/

/-- Modelled from the spec: the async and tree helpers core.c calls (async.c
and tree.c are not among the sources).  `set_backend` and `set_dim` store the
latest value; `set_tree` "transfers ownership of tree to the render loop",
replacing the render thread's current tree and leaving the caller's tree
empty; a tree is empty when it has no node. -/
def spec_ops : async_ops where
  ax__init_tree := ⟨[]⟩
  ax__init_async := fun tree fd =>
    { backend := none, dim := ⟨0, 0⟩, tree := tree, evt_write_fd := fd }
  ax__async_set_backend := fun a bac => { a with backend := bac }
  ax__async_set_dim := fun a dim => { a with dim := dim }
  ax__async_set_tree := fun a t => ({ a with tree := t }, ⟨[]⟩)
  ax__is_tree_empty := fun t => t.nodes.isEmpty

/-- A state as `ax_new_state` builds it when `pipe` hands out descriptors 3
and 4. -/
def state0 : ax_state :=
  { err_msg := none
    win_size := ⟨800, 600⟩
    backend := none
    evt_read_fd := 3
    evt_write_fd := 4
    interp_err_msg := none
    tree := ⟨[]⟩
    async := { backend := none, dim := ⟨0, 0⟩, tree := ⟨[]⟩, evt_write_fd := 4 } }

/-- A backend as a successful `ax__new_backend` leaves it. -/
def backend0 : ax_backend :=
  { window := some 1, render := some 2, prev_w := -999, prev_h := -999 }

/-- An SDL in which every call of `ax__new_backend` succeeds. -/
def env_ok : backend_env :=
  { SDL_Init := 0
    TTF_Init := 0
    SDL_CreateWindowAndRenderer := 0
    window := some 1
    render := some 2
    SDL_SetRenderDrawBlendMode := 0
    SDL_GetError := ""
    TTF_GetError := ""
    malloc_ok := true }

/-- An SDL whose `SDL_Init` fails. -/
def env_no_video : backend_env :=
  { env_ok with SDL_Init := -1, SDL_GetError := "No available video device" }

/-- Pop results in which two empty pops and two resizes precede a Close, and
more results follow it. -/
def pops0 : List (Option ax_backend_evt) :=
  [none, some ⟨.AX_BEVT_RESIZE, ⟨10, 20⟩⟩, none, some ⟨.AX_BEVT_RESIZE, ⟨30, 40⟩⟩,
    some ⟨.AX_BEVT_CLOSE, ⟨0, 0⟩⟩, none, some ⟨.AX_BEVT_CLOSE, ⟨0, 0⟩⟩]

/-- The state `state0` once a backend has been installed in it. -/
def state1 : ax_state :=
  { state0 with backend := some backend0 }

/-- The state `state0` after `ax__initialize_backend` has returned on it:
the backend is installed and the async module holds it and the window size. -/
def state2 : ax_state :=
  { state1 with
    async := { state0.async with backend := some backend0, dim := ⟨800, 600⟩ } }

/-- A queue with a key-down of `a`, a window event, a key-down of `q`, a
mouse motion and an `SDL_QUIT`, in that order. -/
def queue0 : List SDL_Event :=
  [⟨0x300, 97⟩, ⟨0x200, 0⟩, ⟨0x300, 113⟩, ⟨0x400, 0⟩, ⟨0x100, 0⟩]

/-- Five window events, as five rapid size changes leave them in the queue. -/
def queue5 : List SDL_Event :=
  [⟨0x200, 0⟩, ⟨0x200, 0⟩, ⟨0x200, 0⟩, ⟨0x200, 0⟩, ⟨0x200, 0⟩]

/-- An SDL_ttf that opens every font, as font 7. -/
def font_env_ok : font_env :=
  { TTF_OpenFont := fun _ _ => some 7, TTF_GetError := "", malloc_ok := true }

/-- An SDL_ttf that opens no font. -/
def font_env_missing : font_env :=
  { TTF_OpenFont := fun _ _ => none, TTF_GetError := "Couldn't open a.ttf", malloc_ok := true }

/-- An SDL whose `SDL_Init` fails while the `malloc` inside `ax__set_error`
fails too. -/
def env_no_video_no_memory : backend_env :=
  { env_no_video with malloc_ok := false }

/-- An SDL_ttf that opens no font while the `malloc` inside `ax__set_error`
fails too. -/
def font_env_no_memory : font_env :=
  { font_env_missing with malloc_ok := false }

/-! ## Waiting for close -/

theorem wait_loop_until_close (fd : Int) (c : ax_backend_evt)
    (post : List (Option ax_backend_evt)) (hc : c.ty = .AX_BEVT_CLOSE) :
    ∀ pre : List (Option ax_backend_evt),
      (∀ e, some e ∈ pre → e.ty ≠ .AX_BEVT_CLOSE) →
      wait_loop fd (pre ++ some c :: post) =
        (pre.flatMap (fun p => match p with
            | none => [Call.ax__async_pop_bevt, Call.read fd 1]
            | some _ => [Call.ax__async_pop_bevt]) ++
          [Call.ax__async_pop_bevt, Call.printf "bye!\n"], some 0, post) := by
  intro pre
  induction pre with
  | nil =>
    intro _
    simp [wait_loop, hc]
  | cons p pre ih =>
    intro hpre
    have ih1 := ih (fun e he => hpre e (List.mem_cons_of_mem _ he))
    cases p with
    | none => simp [wait_loop, ih1]
    | some e =>
      have hne : e.ty ≠ .AX_BEVT_CLOSE := hpre e (List.mem_cons_self _ _)
      cases hty : e.ty with
      | AX_BEVT_CLOSE => exact absurd hty hne
      | AX_BEVT_RESIZE => simp [wait_loop, hty, ih1]

theorem wait_loop_without_close (fd : Int) :
    ∀ pops : List (Option ax_backend_evt),
      (∀ e, some e ∈ pops → e.ty ≠ .AX_BEVT_CLOSE) →
      (wait_loop fd pops).2 = (none, []) := by
  intro pops
  induction pops with
  | nil => intro _; simp [wait_loop]
  | cons p pops ih =>
    intro hp
    have ih1 := ih (fun e he => hp e (List.mem_cons_of_mem _ he))
    cases p with
    | none => simp [wait_loop, ih1]
    | some e =>
      have hne : e.ty ≠ .AX_BEVT_CLOSE := hp e (List.mem_cons_self _ _)
      cases hty : e.ty with
      | AX_BEVT_CLOSE => exact absurd hty hne
      | AX_BEVT_RESIZE => simp [wait_loop, hty, ih1]

theorem split_at_first_close :
    ∀ pops : List (Option ax_backend_evt),
      (∃ c, some c ∈ pops ∧ c.ty = .AX_BEVT_CLOSE) →
      ∃ pre c post, pops = pre ++ some c :: post ∧ c.ty = .AX_BEVT_CLOSE ∧
        ∀ e, some e ∈ pre → e.ty ≠ .AX_BEVT_CLOSE := by
  intro pops
  induction pops with
  | nil => rintro ⟨c, hc, _⟩; simp at hc
  | cons p pops ih =>
    rintro ⟨c, hc, hty⟩
    by_cases hp : ∃ e, p = some e ∧ e.ty = .AX_BEVT_CLOSE
    · obtain ⟨e, rfl, he⟩ := hp
      exact ⟨[], e, pops, by simp, he, by simp⟩
    · have hin : some c ∈ pops := by
        rcases List.mem_cons.mp hc with h | h
        · exact absurd ⟨c, h.symm, hty⟩ hp
        · exact h
      obtain ⟨pre, c1, post, hsplit, hc1, hpre⟩ := ih ⟨c, hin, hty⟩
      refine ⟨p :: pre, c1, post, by simp [hsplit], hc1, ?_⟩
      intro e he
      rcases List.mem_cons.mp he with h | h
      · intro hcl
        exact hp ⟨e, h.symm, hcl⟩
      · exact hpre e h

/-- C1: on a state whose backend is set, for every sequence of pop results
that contains a Close, `ax_wait_for_close` returns 0 right after popping the
first Close: the sequence splits into the pops before the first Close, that
Close, and the pops left unconsumed; the calls made are, in pop order, one pop
for each earlier event (a Resize ends nothing), one pop followed by exactly
one one-byte read of the wake-up pipe for each empty pop, then the pop of the
Close and the farewell.  While no Close has been popped the call has not
returned. -/
theorem ax_wait_for_close_returns_at_first_close (s : ax_state)
    (pops : List (Option ax_backend_evt)) (hb : s.backend ≠ none)
    (hclose : ∃ c, some c ∈ pops ∧ c.ty = .AX_BEVT_CLOSE) :
    (∃ pre c post, pops = pre ++ some c :: post ∧ c.ty = .AX_BEVT_CLOSE ∧
        (∀ e, some e ∈ pre → e.ty ≠ .AX_BEVT_CLOSE) ∧
        ax_wait_for_close s pops =
          (pre.flatMap (fun p => match p with
              | none => [Call.ax__async_pop_bevt, Call.read s.evt_read_fd 1]
              | some _ => [Call.ax__async_pop_bevt]) ++
            [Call.ax__async_pop_bevt, Call.printf "bye!\n"],
           some (Outcome.ret 0), post)) ∧
    (∀ waiting : List (Option ax_backend_evt),
        (∀ e, some e ∈ waiting → e.ty ≠ .AX_BEVT_CLOSE) →
        (ax_wait_for_close s waiting).2 = (none, [])) := by
  have hsome : s.backend.isNone = false := by
    cases hbk : s.backend with
    | none => exact absurd hbk hb
    | some b => rfl
  constructor
  · obtain ⟨pre, c, post, hsplit, hc, hpre⟩ := split_at_first_close pops hclose
    refine ⟨pre, c, post, hsplit, hc, hpre, ?_⟩
    simp [ax_wait_for_close, hsome, hsplit, wait_loop_until_close s.evt_read_fd c post hc pre hpre]
  · intro waiting hw
    have h := wait_loop_without_close s.evt_read_fd waiting hw
    simp only [ax_wait_for_close, hsome, Bool.false_eq_true, if_false]
    rw [Prod.ext_iff] at h ⊢
    simp [h.1, h.2]

/-- Witness for C1: two empty pops and two resizes precede the first Close;
a later Close is left unconsumed. -/
theorem ax_wait_for_close_returns_at_first_close_witness :
    ax_wait_for_close { state0 with backend := some backend0 } pops0 =
      ([Call.ax__async_pop_bevt, Call.read 3 1, Call.ax__async_pop_bevt,
        Call.ax__async_pop_bevt, Call.read 3 1, Call.ax__async_pop_bevt,
        Call.ax__async_pop_bevt, Call.printf "bye!\n"],
       some (Outcome.ret 0), [none, some ⟨.AX_BEVT_CLOSE, ⟨0, 0⟩⟩]) ∧
    ∃ pre c post, pops0 = pre ++ some c :: post ∧
      c.ty = ax_backend_evt_type.AX_BEVT_CLOSE :=
  ⟨by decide,
   (ax_wait_for_close_returns_at_first_close { state0 with backend := some backend0 }
      pops0 (by decide) ⟨⟨.AX_BEVT_CLOSE, ⟨0, 0⟩⟩, by decide, rfl⟩).1.elim
      fun pre h => h.elim fun c h => h.elim fun post h => ⟨pre, c, post, h.1, h.2.1⟩⟩

/-- C5: with no backend (`backend` is `NULL`, as in every state
`ax_new_state` returns) `ax_wait_for_close` fails the assertion "backend must
be initialized!" having made no call at all, no pop and no read, and having
consumed no pop result; it runs its wait loop if and only if the backend is
non-null, and the wait loop itself never fails an assertion. -/
theorem ax_wait_for_close_asserts_backend (s : ax_state)
    (pops : List (Option ax_backend_evt)) :
    (s.backend = none →
      ax_wait_for_close s pops =
        ([], some (Outcome.fatal "backend must be initialized!" []), pops)) ∧
    (ax_wait_for_close s pops =
        ((wait_loop s.evt_read_fd pops).1,
         (wait_loop s.evt_read_fd pops).2.1.map Outcome.ret,
         (wait_loop s.evt_read_fd pops).2.2) ↔ s.backend ≠ none) ∧
    (∀ (ops : async_ops) (env : new_state_env) (fresh : ax_state),
      ax_new_state ops env = Outcome.ret fresh →
      fresh.backend = none ∧
      ax_wait_for_close fresh pops =
        ([], some (Outcome.fatal "backend must be initialized!" []), pops)) := by
  refine ⟨?_, ?_, ?_⟩
  · intro h
    simp [ax_wait_for_close, h]
  · cases hbk : s.backend with
    | none =>
      simp only [ax_wait_for_close, hbk, Option.isNone_none, if_true, ne_eq,
        not_true_eq_false, iff_false]
      intro h
      have h2 := congrArg (fun r => r.2.1) h
      cases hw : (wait_loop s.evt_read_fd pops).2.1 <;> simp [hw] at h2
    | some b => simp [ax_wait_for_close, hbk]
  · intro ops env fresh hnew
    have hb : fresh.backend = none := by
      unfold ax_new_state at hnew
      split at hnew
      · cases hnew
      · split at hnew
        · cases hnew
        · cases hnew
          rfl
    exact ⟨hb, by simp [ax_wait_for_close, hb]⟩

/-- Witness for C5: the state `ax_new_state` builds on descriptors 3 and 4
has no backend, and waiting on it aborts at once. -/
theorem ax_wait_for_close_asserts_backend_witness :
    ax_new_state spec_ops ⟨true, 0, (3, 4), "", none⟩ = Outcome.ret state0 ∧
    ax_wait_for_close state0 [none, some ⟨.AX_BEVT_CLOSE, ⟨0, 0⟩⟩] =
      ([], some (Outcome.fatal "backend must be initialized!" []),
        [none, some ⟨.AX_BEVT_CLOSE, ⟨0, 0⟩⟩]) :=
  ⟨by decide,
   (ax_wait_for_close_asserts_backend state0 [none, some ⟨.AX_BEVT_CLOSE, ⟨0, 0⟩⟩]).1 rfl⟩

/-! ## Teardown -/

/-- C2, counterexample: on a state with descriptors 3 (read end) and 4 (write
end) `ax_destroy_state` closes the read end second, before `ax__free_async`,
so `ax__free_async` does not come before the close of the read end. -/
theorem ax_destroy_state_read_end_not_last :
    ax_destroy_state (some state1) =
      [Call.close 4, Call.close 3, Call.ax__free_async, Call.ax__free_geom,
       Call.ax__free_tree, Call.ax__free_interp, Call.ax__free_lexer,
       Call.SDL_DestroyRenderer, Call.SDL_DestroyWindow, Call.TTF_Quit, Call.SDL_Quit,
       Call.free "err_msg", Call.free "ax_state"] ∧
    ¬ ((ax_destroy_state (some state1)).indexOf Call.ax__free_async <
        (ax_destroy_state (some state1)).indexOf (Call.close state1.evt_read_fd)) := by
  decide

/-- C2, amended: for every non-null state `ax_destroy_state` first closes the
write end of the wake-up pipe, then the read end, and only then calls
`ax__free_async`; nothing later in the teardown closes a descriptor or frees
the async machinery again.  A null state makes no call. -/
theorem ax_destroy_state_order (s : ax_state) :
    (∃ rest, ax_destroy_state (some s) =
        Call.close s.evt_write_fd :: Call.close s.evt_read_fd :: Call.ax__free_async :: rest ∧
        (∀ fd, Call.close fd ∉ rest) ∧ Call.ax__free_async ∉ rest) ∧
    ax_destroy_state none = [] := by
  refine ⟨⟨_, rfl, ?_, ?_⟩, rfl⟩
  · intro fd
    cases hb : s.backend with
    | none => simp [ax__destroy_backend]
    | some b =>
      cases hr : b.render <;> cases hw : b.window <;>
        simp [ax__destroy_backend, free_backend, hr, hw]
  · cases hb : s.backend with
    | none => simp [ax__destroy_backend]
    | some b =>
      cases hr : b.render <;> cases hw : b.window <;>
        simp [ax__destroy_backend, free_backend, hr, hw]

/-! ## Tree hand-off -/

/-- C3, counterexample: handed a tree that holds two nodes, with a hand-off
that takes the nodes over and leaves the caller's tree empty, `ax__set_tree`
installs the tree and returns; no assertion fails. -/
theorem ax__set_tree_installs_nonempty_tree :
    spec_ops.ax__is_tree_empty ⟨[1, 2]⟩ = false ∧
    ax__set_tree spec_ops state1 ⟨[1, 2]⟩ =
      ([Call.ax__async_set_tree ⟨[1, 2]⟩],
       Outcome.ret ({ state1 with async := { state1.async with tree := ⟨[1, 2]⟩ } }, ⟨[]⟩)) := by
  decide

/-- C3, amended: whatever the tree holds when it is handed in,
`ax__set_tree` first passes it to `ax__async_set_tree`; the assertion "tree
should be empty after setting" is checked afterwards, on the caller's tree as
the hand-off left it.  The call aborts exactly when that tree is still
non-empty after the hand-off, and otherwise returns with the async slot the
hand-off produced. -/
theorem ax__set_tree_checks_after_handoff (ops : async_ops) (s : ax_state)
    (new_tree : ax_tree) :
    (ax__set_tree ops s new_tree).1 = [Call.ax__async_set_tree new_tree] ∧
    ((ax__set_tree ops s new_tree).2 =
        Outcome.fatal "tree should be empty after setting" [] ↔
      ops.ax__is_tree_empty (ops.ax__async_set_tree s.async new_tree).2 = false) ∧
    ((ax__set_tree ops s new_tree).2 =
        Outcome.ret ({ s with async := (ops.ax__async_set_tree s.async new_tree).1 },
          (ops.ax__async_set_tree s.async new_tree).2) ↔
      ops.ax__is_tree_empty (ops.ax__async_set_tree s.async new_tree).2 = true) := by
  refine ⟨rfl, ?_, ?_⟩ <;>
    cases h : ops.ax__is_tree_empty (ops.ax__async_set_tree s.async new_tree).2 <;>
    simp [ax__set_tree, h]

/-! ## Backend initialisation -/

theorem ax__new_backend_ret (env : backend_env) (ax : ax_state) (out : Option ax_backend)
    (calls : List Call) (r : Int) (ax1 : ax_state) (out1 : Option ax_backend)
    (h : ax__new_backend env ax out = (calls, Outcome.ret (r, ax1, out1))) :
    (r = 0 ∧ ax1 = ax ∧
      out1 = some { window := env.window, render := env.render,
                    prev_w := -999, prev_h := -999 } ∧
      env.SDL_Init = 0 ∧ env.TTF_Init = 0 ∧ env.SDL_CreateWindowAndRenderer = 0 ∧
      env.SDL_SetRenderDrawBlendMode = 0) ∨
    (r = 1 ∧ out1 = out ∧
      (env.SDL_Init ≠ 0 ∨ env.TTF_Init ≠ 0 ∨ env.SDL_CreateWindowAndRenderer ≠ 0 ∨
        env.SDL_SetRenderDrawBlendMode ≠ 0) ∧
      ∃ msg, (msg = env.SDL_GetError ∨ msg = env.TTF_GetError) ∧
        ax__set_error env.malloc_ok ax msg = Outcome.ret ax1 ∧
        ax1 = { ax with err_msg := some msg }) := by
  unfold ax__new_backend new_backend_err at h
  cases hm : env.malloc_ok <;> simp only [ax__set_error, hm] at h ⊢ <;>
    split_ifs at h <;> simp_all

theorem ax__initialize_backend_of_backend (ops : async_ops) (env : backend_env)
    (s : ax_state) (hb : s.backend ≠ none) :
    ax__initialize_backend ops env s = ([], Outcome.fatal "backend already initialized" []) := by
  cases hbk : s.backend with
  | none => exact absurd hbk hb
  | some b => simp [ax__initialize_backend, hbk]

theorem ax__initialize_backend_unfold (ops : async_ops) (env : backend_env)
    (s : ax_state) (hb : s.backend = none) (calls : List Call) (r : Int)
    (s1 : ax_state) (out : Option ax_backend)
    (h : ax__new_backend env s s.backend = (calls, Outcome.ret (r, s1, out))) :
    ax__initialize_backend ops env s =
      if r ≠ 0 then
        (calls, Outcome.fatal "create backend: %s" [ax_get_error { s1 with backend := out }])
      else
        (calls ++ [Call.ax__async_set_backend out, Call.ax__async_set_dim s1.win_size],
          Outcome.ret { s1 with
            backend := out
            async := ops.ax__async_set_dim
              (ops.ax__async_set_backend s1.async out) s1.win_size }) := by
  unfold ax__initialize_backend
  simp only [hb, Option.isSome_none, Bool.false_eq_true, if_false]
  rw [hb] at h
  rw [h]

theorem ax__initialize_backend_ret (ops : async_ops) (env : backend_env)
    (s s1 : ax_state) (calls : List Call)
    (h : ax__initialize_backend ops env s = (calls, Outcome.ret s1)) :
    s.backend = none ∧
    s1.backend = some { window := env.window, render := env.render,
                        prev_w := -999, prev_h := -999 } := by
  cases hbk : s.backend with
  | some b =>
    rw [ax__initialize_backend_of_backend ops env s (by simp [hbk])] at h
    simp at h
  | none =>
    refine ⟨rfl, ?_⟩
    rcases hnb : ax__new_backend env s s.backend with ⟨calls1, res⟩
    cases res with
    | fatal fmt args =>
      unfold ax__initialize_backend at h
      simp only [hbk, Option.isSome_none, Bool.false_eq_true, if_false] at h
      rw [hbk] at hnb
      rw [hnb] at h
      simp at h
    | ret v =>
      obtain ⟨r, s2, out⟩ := v
      rw [ax__initialize_backend_unfold ops env s hbk calls1 r s2 out hnb] at h
      rcases ax__new_backend_ret env s s.backend calls1 r s2 out hnb with
        ⟨hr, -, hout, -⟩ | ⟨hr, -, -, -⟩
      · simp only [hr, ne_eq, not_true_eq_false, if_false, Prod.mk.injEq,
          Outcome.ret.injEq] at h
        rw [← h.2]
        exact hout
      · simp [hr] at h

/-- C4: `ax__initialize_backend` succeeds at most once per state.  When a
call has returned, the state it leaves has a non-null backend, and any further
call on that state, whatever SDL would answer, fails the assertion "backend
already initialized" having made no call: no second backend is created and
the async backend and dimension slots are not touched.  The same holds for
every state whose backend is non-null. -/
theorem ax__initialize_backend_at_most_once (ops : async_ops) (env : backend_env)
    (s s1 : ax_state) (calls : List Call)
    (h : ax__initialize_backend ops env s = (calls, Outcome.ret s1)) :
    s1.backend ≠ none ∧
    (∀ (ops2 : async_ops) (env2 : backend_env),
      ax__initialize_backend ops2 env2 s1 =
        ([], Outcome.fatal "backend already initialized" [])) ∧
    (∀ (ops2 : async_ops) (env2 : backend_env) (t : ax_state), t.backend ≠ none →
      ax__initialize_backend ops2 env2 t =
        ([], Outcome.fatal "backend already initialized" [])) := by
  have hb : s1.backend ≠ none := by
    rw [(ax__initialize_backend_ret ops env s s1 calls h).2]
    simp
  exact ⟨hb, fun ops2 env2 => ax__initialize_backend_of_backend ops2 env2 s1 hb,
    fun ops2 env2 t ht => ax__initialize_backend_of_backend ops2 env2 t ht⟩

/-- Witness for C4: on a fresh state with a working SDL the first call
returns, creating the window and handing backend and window size to the async
module; the second call aborts without a call. -/
theorem ax__initialize_backend_at_most_once_witness :
    ax__initialize_backend spec_ops env_ok state0 =
      ([Call.SDL_Init, Call.TTF_Init, Call.SDL_CreateWindowAndRenderer 800 600,
        Call.SDL_SetRenderDrawBlendMode, Call.ax__async_set_backend (some backend0),
        Call.ax__async_set_dim ⟨800, 600⟩],
       Outcome.ret state2) ∧
    ax__initialize_backend spec_ops env_ok state2 =
      ([], Outcome.fatal "backend already initialized" []) :=
  ⟨by decide,
   (ax__initialize_backend_at_most_once spec_ops env_ok state0 state2
      [Call.SDL_Init, Call.TTF_Init, Call.SDL_CreateWindowAndRenderer 800 600,
        Call.SDL_SetRenderDrawBlendMode, Call.ax__async_set_backend (some backend0),
        Call.ax__async_set_dim ⟨800, 600⟩] (by decide)).2.1 spec_ops env_ok⟩

/-- C7, counterexample: on a fresh state, with an SDL whose `SDL_Init`
fails, `ax__new_backend` returns 1 with the message captured, and
`ax__initialize_backend` does not return: it aborts through the assertion
"create backend: %s". -/
theorem ax__initialize_backend_aborts_on_failure :
    ax__new_backend env_no_video state0 state0.backend =
      ([Call.SDL_Init, Call.TTF_Quit, Call.SDL_Quit],
       Outcome.ret (1, { state0 with err_msg := some "No available video device" }, none)) ∧
    ax__initialize_backend spec_ops env_no_video state0 =
      ([Call.SDL_Init, Call.TTF_Quit, Call.SDL_Quit],
       Outcome.fatal "create backend: %s" [some "No available video device"]) := by
  decide

/-- C7, amended: a backend creation failure is recoverable at the level of
`ax__new_backend` only.  For every state without a backend, if
`ax__new_backend` returns non-zero inside `ax__initialize_backend`, it has
returned 1 with a library error message captured by `ax__set_error`, and
`ax__initialize_backend` then aborts through the fatal assertion
"create backend: %s", whose argument is that message as `ax_get_error`
retrieves it; it makes no further call, so the async backend and dimension
slots are not touched, and it does not return to its caller. -/
theorem ax__initialize_backend_failure_is_fatal (ops : async_ops) (env : backend_env)
    (s : ax_state) (hb : s.backend = none) (calls : List Call) (r : Int)
    (s1 : ax_state) (out : Option ax_backend)
    (h : ax__new_backend env s s.backend = (calls, Outcome.ret (r, s1, out)))
    (hr : r ≠ 0) :
    r = 1 ∧ out = none ∧
    (∃ msg, (msg = env.SDL_GetError ∨ msg = env.TTF_GetError) ∧
      ax__set_error env.malloc_ok s msg = Outcome.ret s1 ∧
      ax_get_error { s1 with backend := out } = some msg ∧
      ax__initialize_backend ops env s =
        (calls, Outcome.fatal "create backend: %s" [some msg])) ∧
    (∀ s2, (ax__initialize_backend ops env s).2 ≠ Outcome.ret s2) := by
  have hinit := ax__initialize_backend_unfold ops env s hb calls r s1 out h
  simp only [hr, ne_eq, not_false_eq_true, if_true] at hinit
  rcases ax__new_backend_ret env s s.backend calls r s1 out h with
    ⟨h0, -⟩ | ⟨h1, hout, -, msg, hmsg, hset, hs1⟩
  · exact absurd h0 hr
  · have hget : ax_get_error { s1 with backend := out } = some msg := by
      simp [ax_get_error, hs1]
    refine ⟨h1, by rw [hout, hb], ⟨msg, hmsg, hset, hget, ?_⟩, ?_⟩
    · rw [hinit, hget]
    · intro s2
      rw [hinit]
      simp

/-- Witness for C7: the failing `SDL_Init` on a fresh state. -/
theorem ax__initialize_backend_failure_is_fatal_witness :
    ax__initialize_backend spec_ops env_no_video state0 =
      ([Call.SDL_Init, Call.TTF_Quit, Call.SDL_Quit],
       Outcome.fatal "create backend: %s" [some "No available video device"]) ∧
    ∀ s2, (ax__initialize_backend spec_ops env_no_video state0).2 ≠ Outcome.ret s2 :=
  ⟨by decide,
   (ax__initialize_backend_failure_is_fatal spec_ops env_no_video state0 rfl
      [Call.SDL_Init, Call.TTF_Quit, Call.SDL_Quit] 1
      { state0 with err_msg := some "No available video device" } none
      (by decide) (by decide)).2.2.2⟩

/-! ## Polling the backend -/

theorem poll_loop_no_quit :
    ∀ queue : List SDL_Event, (∀ se ∈ queue, quit_request se = false) →
      poll_loop queue = (false, []) := by
  intro queue
  induction queue with
  | nil => intro _; rfl
  | cons se rest ih =>
    intro h
    have hse := h se (List.mem_cons_self _ _)
    have ih1 := ih (fun x hx => h x (List.mem_cons_of_mem _ hx))
    simp only [quit_request, Bool.or_eq_false_iff, decide_eq_false_iff_not,
      Bool.and_eq_false_imp, decide_eq_true_eq] at hse
    simp only [poll_loop, hse.1, if_false]
    split_ifs with h1 h2
    · exact absurd h2 (hse.2 h1)
    · exact ih1
    · exact ih1

theorem poll_loop_at_first_quit (se : SDL_Event) (post : List SDL_Event)
    (hq : quit_request se = true) :
    ∀ pre : List SDL_Event, (∀ x ∈ pre, quit_request x = false) →
      poll_loop (pre ++ se :: post) = (true, post) := by
  intro pre
  induction pre with
  | nil =>
    intro _
    simp only [quit_request, Bool.or_eq_true, decide_eq_true_eq, Bool.and_eq_true] at hq
    simp only [List.nil_append, poll_loop]
    rcases hq with h | ⟨h1, h2⟩
    · simp [h]
    · simp [h1, h2]
  | cons x pre ih =>
    intro h
    have hx := h x (List.mem_cons_self _ _)
    have ih1 := ih (fun y hy => h y (List.mem_cons_of_mem _ hy))
    simp only [quit_request, Bool.or_eq_false_iff, decide_eq_false_iff_not,
      Bool.and_eq_false_imp, decide_eq_true_eq] at hx
    simp only [List.cons_append, poll_loop, hx.1, if_false]
    split_ifs with h1 h2
    · exact absurd h2 (hx.2 h1)
    · exact ih1
    · exact ih1

theorem split_at_first_quit :
    ∀ queue : List SDL_Event, (∃ se ∈ queue, quit_request se = true) →
      ∃ pre se post, queue = pre ++ se :: post ∧ quit_request se = true ∧
        ∀ x ∈ pre, quit_request x = false := by
  intro queue
  induction queue with
  | nil => rintro ⟨se, hse, _⟩; simp at hse
  | cons x rest ih =>
    rintro ⟨se, hse, hq⟩
    cases hx : quit_request x with
    | true => exact ⟨[], x, rest, by simp, hx, by simp⟩
    | false =>
      have hin : se ∈ rest := by
        rcases List.mem_cons.mp hse with h | h
        · rw [h, hx] at hq
          cases hq
        · exact h
      obtain ⟨pre, se1, post, hsplit, hq1, hpre⟩ := ih ⟨se, hin, hq⟩
      refine ⟨x :: pre, se1, post, by simp [hsplit], hq1, ?_⟩
      intro y hy
      rcases List.mem_cons.mp hy with h | h
      · rw [h]; exact hx
      · exact hpre y h

theorem ax__poll_event_no_quit (world : SDL_world) (bac : ax_backend) (be : ax_backend_evt)
    (h : ∀ se ∈ world.queue, quit_request se = false) :
    ax__poll_event world bac be =
      if world.win_w ≠ bac.prev_w ∨ world.win_h ≠ bac.prev_h then
        (true, { world with queue := [] },
          { bac with prev_w := world.win_w, prev_h := world.win_h },
          { ty := .AX_BEVT_RESIZE, resize_dim := ⟨world.win_w, world.win_h⟩ })
      else (false, { world with queue := [] }, bac, be) := by
  simp [ax__poll_event, poll_loop_no_quit world.queue h]

/-- C9: `ax__poll_event` is a total function of the finite queue of pending
raw events, and what it reports is a Close, a Resize or nothing.  It reports
Close exactly when the queue holds a quit request (`SDL_QUIT`, or a key-down
of `q`); then the events up to and including the first quit request are
consumed, the later ones stay queued, and the backend with its last-known
size is unchanged.  With no quit request every pending event is consumed and
dropped, and the result is decided by comparing the window size with the
last-known size. -/
theorem ax__poll_event_classifies (world : SDL_world) (bac : ax_backend)
    (be : ax_backend_evt) :
    ((ax__poll_event world bac be).1 = false ∧ (ax__poll_event world bac be).2.2.2 = be ∨
      (ax__poll_event world bac be).1 = true ∧
        ((ax__poll_event world bac be).2.2.2.ty = .AX_BEVT_CLOSE ∨
         (ax__poll_event world bac be).2.2.2.ty = .AX_BEVT_RESIZE)) ∧
    ((∃ se ∈ world.queue, quit_request se = true) →
      ∃ pre se post, world.queue = pre ++ se :: post ∧ quit_request se = true ∧
        (∀ x ∈ pre, quit_request x = false) ∧
        ax__poll_event world bac be =
          (true, { world with queue := post }, bac, { be with ty := .AX_BEVT_CLOSE })) ∧
    ((∀ se ∈ world.queue, quit_request se = false) →
      ax__poll_event world bac be =
        if world.win_w ≠ bac.prev_w ∨ world.win_h ≠ bac.prev_h then
          (true, { world with queue := [] },
            { bac with prev_w := world.win_w, prev_h := world.win_h },
            { ty := .AX_BEVT_RESIZE, resize_dim := ⟨world.win_w, world.win_h⟩ })
        else (false, { world with queue := [] }, bac, be)) ∧
    (((ax__poll_event world bac be).1 = true ∧
        (ax__poll_event world bac be).2.2.2.ty = .AX_BEVT_CLOSE ∧
        (ax__poll_event world bac be).2.2.1 = bac) ↔
      ∃ se ∈ world.queue, quit_request se = true) := by
  have hquit : (∃ se ∈ world.queue, quit_request se = true) →
      ∃ pre se post, world.queue = pre ++ se :: post ∧ quit_request se = true ∧
        (∀ x ∈ pre, quit_request x = false) ∧
        ax__poll_event world bac be =
          (true, { world with queue := post }, bac, { be with ty := .AX_BEVT_CLOSE }) := by
    intro hex
    obtain ⟨pre, se, post, hsplit, hq, hpre⟩ := split_at_first_quit world.queue hex
    refine ⟨pre, se, post, hsplit, hq, hpre, ?_⟩
    simp [ax__poll_event, hsplit, poll_loop_at_first_quit se post hq pre hpre]
  have hnone := ax__poll_event_no_quit world bac be
  by_cases hex : ∃ se ∈ world.queue, quit_request se = true
  · obtain ⟨pre, se, post, -, -, -, hres⟩ := hquit hex
    refine ⟨Or.inr ?_, hquit, hnone, ?_⟩
    · rw [hres]; exact ⟨rfl, Or.inl rfl⟩
    · rw [hres]; simp [hex]
  · have hall : ∀ se ∈ world.queue, quit_request se = false := by
      intro se hse
      cases hq : quit_request se with
      | false => rfl
      | true => exact absurd ⟨se, hse, hq⟩ hex
    have hres := hnone hall
    refine ⟨?_, hquit, hnone, ?_⟩
    · rw [hres]
      split_ifs
      · exact Or.inr ⟨rfl, Or.inr rfl⟩
      · exact Or.inl ⟨rfl, rfl⟩
    · rw [hres]
      split_ifs <;> simp [hex]

/-- Witness for C9: a key-down of `q` in third place ends the pass with
Close; the two events after it stay queued and the backend is untouched, even
though the window size differs from the last-known size. -/
theorem ax__poll_event_classifies_witness :
    ax__poll_event ⟨queue0, 800, 600⟩ backend0 ⟨.AX_BEVT_RESIZE, ⟨1, 1⟩⟩ =
      (true, ⟨[⟨0x400, 0⟩, ⟨0x100, 0⟩], 800, 600⟩, backend0, ⟨.AX_BEVT_CLOSE, ⟨1, 1⟩⟩) ∧
    ∃ pre se post, queue0 = pre ++ se :: post ∧ quit_request se = true :=
  ⟨by decide,
   ((ax__poll_event_classifies ⟨queue0, 800, 600⟩ backend0 ⟨.AX_BEVT_RESIZE, ⟨1, 1⟩⟩).2.1
      ⟨⟨0x300, 113⟩, by decide, by decide⟩).elim
      fun pre h => h.elim fun se h => h.elim fun post h => ⟨pre, se, post, h.1, h.2.1⟩⟩

theorem poll_passes_no_quit (be : ax_backend_evt) :
    ∀ (worlds : List SDL_world) (bac : ax_backend),
      (∀ world ∈ worlds, ∀ se ∈ world.queue, quit_request se = false) →
      poll_passes be bac worlds =
        (List.zip ((bac.prev_w, bac.prev_h) :: worlds.map (fun x => (x.win_w, x.win_h)))
            (worlds.map (fun x => (x.win_w, x.win_h)))).map
          (fun p => if p.2 ≠ p.1
            then (true, (⟨.AX_BEVT_RESIZE, ⟨p.2.1, p.2.2⟩⟩ : ax_backend_evt))
            else (false, be)) := by
  intro worlds
  induction worlds with
  | nil => intro bac _; rfl
  | cons world rest ih =>
    intro bac h
    have hw := ax__poll_event_no_quit world bac be (h world (List.mem_cons_self _ _))
    have hrest : ∀ x ∈ rest, ∀ se ∈ x.queue, quit_request se = false :=
      fun x hx => h x (List.mem_cons_of_mem _ hx)
    by_cases hd : world.win_w ≠ bac.prev_w ∨ world.win_h ≠ bac.prev_h
    · have hne : (world.win_w, world.win_h) ≠ (bac.prev_w, bac.prev_h) := by
        intro heq
        rw [Prod.mk.injEq] at heq
        rcases hd with h1 | h1
        · exact h1 heq.1
        · exact h1 heq.2
      rw [if_pos hd] at hw
      simp only [poll_passes, hw, List.map_cons, List.zip_cons_cons, ne_eq, hne,
        not_false_eq_true, if_true]
      rw [ih _ hrest]
    · have heq : (world.win_w, world.win_h) = (bac.prev_w, bac.prev_h) := by
        rw [not_or, not_not, not_not] at hd
        rw [hd.1, hd.2]
      rw [if_neg hd] at hw
      simp only [poll_passes, hw, List.map_cons, List.zip_cons_cons, ne_eq, heq,
        not_true_eq_false, if_false]
      rw [ih _ hrest, ← heq]

/-- C6: resize coalescing in `ax__poll_event`.  With no quit request pending,
a pass reports a Resize if and only if the window size at that pass differs
from the last-known size; the event carries exactly the size current at that
pass, and after the pass the last-known size is that size.  The last-known
size starts at (-999,-999) in every backend `ax__new_backend` creates.  Over
any sequence of such passes the reports are exactly the size transitions
between consecutive passes, so the number of Resize events equals the number
of transitions; over (w1,h1),(w2,h2),(w2,h2),(w3,h3) the repeated size
reports nothing.  However many window events a burst of size changes left in
the queue, one pass reports one Resize with the latest size and the next
pass, at the same size, reports nothing. -/
theorem ax__poll_event_coalesces_resize (be : ax_backend_evt) (bac : ax_backend) :
    (∀ world : SDL_world, (∀ se ∈ world.queue, quit_request se = false) →
      ((ax__poll_event world bac be).1 = true ↔
        (world.win_w, world.win_h) ≠ (bac.prev_w, bac.prev_h)) ∧
      ((ax__poll_event world bac be).1 = true →
        (ax__poll_event world bac be).2.2.2 =
          ⟨.AX_BEVT_RESIZE, ⟨world.win_w, world.win_h⟩⟩) ∧
      ((ax__poll_event world bac be).1 = false →
        (ax__poll_event world bac be).2.2.2 = be) ∧
      (ax__poll_event world bac be).2.2.1.prev_w = world.win_w ∧
      (ax__poll_event world bac be).2.2.1.prev_h = world.win_h ∧
      (ax__poll_event world bac be).2.1.queue = [] ∧
      (∀ again : SDL_world, (∀ se ∈ again.queue, quit_request se = false) →
        again.win_w = world.win_w → again.win_h = world.win_h →
        (ax__poll_event again (ax__poll_event world bac be).2.2.1 be).1 = false)) ∧
    (∀ worlds : List SDL_world,
      (∀ world ∈ worlds, ∀ se ∈ world.queue, quit_request se = false) →
      poll_passes be bac worlds =
        (List.zip ((bac.prev_w, bac.prev_h) :: worlds.map (fun x => (x.win_w, x.win_h)))
            (worlds.map (fun x => (x.win_w, x.win_h)))).map
          (fun p => if p.2 ≠ p.1
            then (true, (⟨.AX_BEVT_RESIZE, ⟨p.2.1, p.2.2⟩⟩ : ax_backend_evt))
            else (false, be)) ∧
      ((poll_passes be bac worlds).filter (fun r => r.1)).length =
        ((List.zip ((bac.prev_w, bac.prev_h) :: worlds.map (fun x => (x.win_w, x.win_h)))
            (worlds.map (fun x => (x.win_w, x.win_h)))).filter
          (fun p => decide (p.2 ≠ p.1))).length) ∧
    (∀ (q1 q2 q3 q4 : List SDL_Event) (w1 h1 w2 h2 w3 h3 : Int),
      (∀ se ∈ q1 ++ q2 ++ q3 ++ q4, quit_request se = false) →
      poll_passes be bac [⟨q1, w1, h1⟩, ⟨q2, w2, h2⟩, ⟨q3, w2, h2⟩, ⟨q4, w3, h3⟩] =
        [if (w1, h1) ≠ (bac.prev_w, bac.prev_h)
           then (true, ⟨.AX_BEVT_RESIZE, ⟨w1, h1⟩⟩) else (false, be),
         if (w2, h2) ≠ (w1, h1)
           then (true, ⟨.AX_BEVT_RESIZE, ⟨w2, h2⟩⟩) else (false, be),
         (false, be),
         if (w3, h3) ≠ (w2, h2)
           then (true, ⟨.AX_BEVT_RESIZE, ⟨w3, h3⟩⟩) else (false, be)]) ∧
    (∀ (env : backend_env) (ax : ax_state) (out : Option ax_backend) (calls : List Call)
        (ax1 : ax_state) (created : ax_backend),
      ax__new_backend env ax out = (calls, Outcome.ret (0, ax1, some created)) →
      created.prev_w = -999 ∧ created.prev_h = -999) := by
  refine ⟨?_, ?_, ?_, ?_⟩
  · intro world h
    have hw := ax__poll_event_no_quit world bac be h
    have hagain : ∀ (again : SDL_world) (b : ax_backend),
        (∀ se ∈ again.queue, quit_request se = false) →
        again.win_w = b.prev_w → again.win_h = b.prev_h →
        (ax__poll_event again b be).1 = false := by
      intro again b hq h1 h2
      rw [ax__poll_event_no_quit again b be hq]
      simp [h1, h2]
    by_cases hd : world.win_w ≠ bac.prev_w ∨ world.win_h ≠ bac.prev_h
    · have hne : (world.win_w, world.win_h) ≠ (bac.prev_w, bac.prev_h) := by
        intro heq
        rw [Prod.mk.injEq] at heq
        rcases hd with h1 | h1
        · exact h1 heq.1
        · exact h1 heq.2
      rw [if_pos hd] at hw
      rw [hw]
      refine ⟨by simp [hne], fun _ => rfl, by simp, rfl, rfl, rfl, ?_⟩
      intro again hq h1 h2
      exact hagain again _ hq h1 h2
    · have heq : world.win_w = bac.prev_w ∧ world.win_h = bac.prev_h := by
        rw [not_or, not_not, not_not] at hd
        exact hd
      rw [if_neg hd] at hw
      rw [hw]
      refine ⟨by simp [heq.1, heq.2], by simp, fun _ => rfl, heq.1.symm, heq.2.symm, rfl, ?_⟩
      intro again hq h1 h2
      exact hagain again _ hq (h1.trans heq.1) (h2.trans heq.2)
  · intro worlds h
    have hp := poll_passes_no_quit be worlds bac h
    refine ⟨hp, ?_⟩
    rw [hp, List.filter_map, List.length_map]
    congr 1
    apply List.filter_congr
    intro p _
    by_cases hpp : p.2 = p.1 <;> simp [hpp]
  · intro q1 q2 q3 q4 w1 h1 w2 h2 w3 h3 hq
    have hp := poll_passes_no_quit be
      [⟨q1, w1, h1⟩, ⟨q2, w2, h2⟩, ⟨q3, w2, h2⟩, ⟨q4, w3, h3⟩] bac (by
        intro world hworld se hse
        apply hq
        simp only [List.mem_cons, List.mem_singleton, List.not_mem_nil, or_false] at hworld
        rcases hworld with rfl | rfl | rfl | rfl <;> simp_all)
    rw [hp]
    simp only [List.map_cons, List.map_nil, List.zip_cons_cons, List.zip_nil_right, ne_eq,
      not_true_eq_false, if_false]
  · intro env ax out calls ax1 created h
    rcases ax__new_backend_ret env ax out calls 0 ax1 (some created) h with
      ⟨-, -, hout, -⟩ | ⟨h1, -⟩
    · rw [Option.some.injEq] at hout
      rw [hout]
      exact ⟨rfl, rfl⟩
    · exact absurd h1 (by decide)

/-- Witness for C6 (scenario B): the window went from 100x100 to 800x600 in
five steps between two passes.  The first pass, at 100x100, reports
Resize(100,100); the second, with the five window events queued, reports one
Resize(800,600); a third pass at the same size reports nothing. -/
theorem ax__poll_event_coalesces_resize_witness :
    poll_passes ⟨.AX_BEVT_CLOSE, ⟨0, 0⟩⟩ backend0
        [⟨[], 100, 100⟩, ⟨queue5, 800, 600⟩, ⟨[], 800, 600⟩] =
      [(true, ⟨.AX_BEVT_RESIZE, ⟨100, 100⟩⟩), (true, ⟨.AX_BEVT_RESIZE, ⟨800, 600⟩⟩),
       (false, ⟨.AX_BEVT_CLOSE, ⟨0, 0⟩⟩)] ∧
    ((poll_passes ⟨.AX_BEVT_CLOSE, ⟨0, 0⟩⟩ backend0
        [⟨[], 100, 100⟩, ⟨queue5, 800, 600⟩, ⟨[], 800, 600⟩]).filter (fun r => r.1)).length =
      ((List.zip ((backend0.prev_w, backend0.prev_h) ::
            [⟨[], 100, 100⟩, ⟨queue5, 800, 600⟩, ⟨[], 800, 600⟩].map
              (fun x : SDL_world => (x.win_w, x.win_h)))
          ([⟨[], 100, 100⟩, ⟨queue5, 800, 600⟩, ⟨[], 800, 600⟩].map
              (fun x : SDL_world => (x.win_w, x.win_h)))).filter
        (fun p => decide (p.2 ≠ p.1))).length :=
  ⟨by decide,
   ((ax__poll_event_coalesces_resize ⟨.AX_BEVT_CLOSE, ⟨0, 0⟩⟩ backend0).2.1
      [⟨[], 100, 100⟩, ⟨queue5, 800, 600⟩, ⟨[], 800, 600⟩] (by decide)).2⟩

/-! ## Error messages and fonts -/

theorem strncmp_eq_zero_iff :
    ∀ (lit s : List Char), strncmp s lit lit.length = 0 ↔ lit <+: s := by
  intro lit
  induction lit with
  | nil => intro s; simp [strncmp]
  | cons b bs ih =>
    intro s
    cases s with
    | nil => simp [strncmp]
    | cons a as =>
      simp only [List.length_cons, strncmp]
      by_cases hab : a = b
      · subst hab
        simp only [if_true, ih as]
        constructor
        · rintro ⟨t, rfl⟩
          exact ⟨t, rfl⟩
        · rintro ⟨t, ht⟩
          exact ⟨t, (List.cons.inj ht).2⟩
      · simp only [hab, if_false]
        constructor
        · intro h0
          exfalso
          apply hab
          have hn : a.toNat = b.toNat := by omega
          rw [← Char.ofNat_toNat a, ← Char.ofNat_toNat b, hn]
        · rintro ⟨t, ht⟩
          exact absurd (List.cons.inj ht).1.symm hab

theorem ax__new_font_invalid (env : font_env) (ax : ax_state) (d : List Char)
    (out : Option Nat)
    (h : ¬ "size:".toList <+: d ∨ ¬ ",path:".toList <+: (strtol (d.drop 5)).2) :
    ax__new_font env ax d out =
      match ax__set_error env.malloc_ok ax "invalid font description" with
      | .fatal fmt args => ([], Outcome.fatal fmt args)
      | .ret ax1 => ([], Outcome.ret (1, ax1, out)) := by
  have h5 := strncmp_eq_zero_iff "size:".toList d
  have h6 := strncmp_eq_zero_iff ",path:".toList (strtol (d.drop 5)).2
  simp only [String.toList, List.length_cons, List.length_nil, Nat.zero_add,
    Nat.reduceAdd] at h5 h6 h
  unfold ax__new_font
  simp only [String.toList, ne_eq, h5, h6]
  rcases h with h | h
  · simp [h]
  · by_cases hs : ['s', 'i', 'z', 'e', ':'] <+: d
    · simp [hs, h]
    · simp [hs]

theorem ax__new_font_valid (env : font_env) (ax : ax_state) (d : List Char)
    (out : Option Nat)
    (h1 : "size:".toList <+: d) (h2 : ",path:".toList <+: (strtol (d.drop 5)).2) :
    ax__new_font env ax d out =
      match env.TTF_OpenFont ((strtol (d.drop 5)).2.drop 6)
          (long_to_int (strtol (d.drop 5)).1) with
      | none =>
        match ax__set_error env.malloc_ok ax env.TTF_GetError with
        | .fatal fmt args =>
          ([Call.TTF_OpenFont ((strtol (d.drop 5)).2.drop 6)
              (long_to_int (strtol (d.drop 5)).1)], Outcome.fatal fmt args)
        | .ret ax1 =>
          ([Call.TTF_OpenFont ((strtol (d.drop 5)).2.drop 6)
              (long_to_int (strtol (d.drop 5)).1)], Outcome.ret (1, ax1, out))
      | some f =>
        ([Call.TTF_OpenFont ((strtol (d.drop 5)).2.drop 6)
            (long_to_int (strtol (d.drop 5)).1)], Outcome.ret (0, ax, some f)) := by
  have h5 := strncmp_eq_zero_iff "size:".toList d
  have h6 := strncmp_eq_zero_iff ",path:".toList (strtol (d.drop 5)).2
  simp only [String.toList, List.length_cons, List.length_nil, Nat.zero_add,
    Nat.reduceAdd] at h5 h6 h1 h2
  unfold ax__new_font
  simp only [String.toList, ne_eq, h5, h6, h1, h2, not_true_eq_false, if_false]

theorem isdigit_not_space_or_sign (c : Char) (h : isdigit c = true) :
    isspace c = false ∧ c ≠ '-' ∧ c ≠ '+' := by
  simp only [isdigit, Bool.and_eq_true, decide_eq_true_eq] at h
  refine ⟨?_, ?_, ?_⟩
  · simp only [isspace, Bool.or_eq_false_iff, decide_eq_false_iff_not]
    refine ⟨⟨⟨⟨⟨?_, ?_⟩, ?_⟩, ?_⟩, ?_⟩, ?_⟩ <;> (rintro rfl; revert h; decide)
  · rintro rfl; revert h; decide
  · rintro rfl; revert h; decide

theorem strtol_digits_append :
    ∀ (ds : List Char) (acc : Nat) (rest : List Char),
      (∀ c ∈ ds, isdigit c = true) → (∀ c, rest.head? = some c → isdigit c = false) →
      strtol_digits (ds ++ rest) acc =
        (ds.foldl (fun a c => a * 10 + (c.toNat - 48)) acc, rest) := by
  intro ds
  induction ds with
  | nil =>
    intro acc rest _ hrest
    cases rest with
    | nil => rfl
    | cons c cs => simp [strtol_digits, hrest c rfl]
  | cons d ds ih =>
    intro acc rest hds hrest
    have hd := hds d (List.mem_cons_self _ _)
    simp only [List.cons_append, strtol_digits, hd, if_true, List.foldl_cons]
    exact ih _ rest (fun c hc => hds c (List.mem_cons_of_mem _ hc)) hrest

theorem strtol_of_digits (ds rest : List Char) (hne : ds ≠ [])
    (hds : ∀ c ∈ ds, isdigit c = true) (hrest : ∀ c, rest.head? = some c → isdigit c = false) :
    strtol (ds ++ rest) =
      (min LONG_MAX ((ds.foldl (fun a c => a * 10 + (c.toNat - 48)) 0 : Nat) : Int), rest) := by
  cases ds with
  | nil => exact absurd rfl hne
  | cons d ds =>
    have hd := hds d (List.mem_cons_self _ _)
    obtain ⟨hsp, hminus, hplus⟩ := isdigit_not_space_or_sign d hd
    have hdig := strtol_digits_append (d :: ds) 0 rest hds hrest
    simp only [List.cons_append] at hdig
    unfold strtol
    simp only [List.cons_append, List.dropWhile_cons, hsp, Bool.false_eq_true, if_false]
    have hsign : (match d :: (ds ++ rest) with
        | '-' :: t => (true, t)
        | '+' :: t => (false, t)
        | _ => (false, d :: (ds ++ rest))) = (false, d :: (ds ++ rest)) := by
      split
      · rename_i t heq
        exact absurd (List.cons.inj heq).1 hminus
      · rename_i t heq
        exact absurd (List.cons.inj heq).1 hplus
      · rfl
    rw [hsign]
    · simp only [hd, if_true, hdig, Bool.false_eq_true, if_false, Prod.mk.injEq, and_true]
      have h0 : LONG_MIN ≤ min LONG_MAX
          ((List.foldl (fun a c => a * 10 + (c.toNat - 48)) 0 (d :: ds) : Nat) : Int) := by
        simp only [LONG_MIN, LONG_MAX]
        omega
      exact max_eq_right h0

/-- C10, counterexample: the description "size:4294967297,path:f" has the
required form with N = 4294967297, and the font is opened at point size 1. -/
theorem ax__new_font_point_size_is_not_N :
    strtol ("size:4294967297,path:f".toList.drop 5) = (4294967297, ",path:f".toList) ∧
    ax__new_font font_env_ok state1 "size:4294967297,path:f".toList none =
      ([Call.TTF_OpenFont "f".toList 1], Outcome.ret (0, state1, some 7)) := by
  decide

theorem ax__new_backend_not_fatal (env : backend_env) (ax : ax_state)
    (out : Option ax_backend) (hm : env.malloc_ok = true) (fmt : String)
    (args : List (Option String)) :
    (ax__new_backend env ax out).2 ≠ Outcome.fatal fmt args := by
  unfold ax__new_backend new_backend_err
  simp only [ax__set_error, hm, if_true]
  split_ifs <;> simp

theorem ax__new_font_ret (env : font_env) (ax : ax_state) (d : List Char)
    (out : Option Nat) (calls : List Call) (r : Int) (ax1 : ax_state) (out1 : Option Nat)
    (h : ax__new_font env ax d out = (calls, Outcome.ret (r, ax1, out1))) :
    (r = 0 ∧ ax1 = ax ∧ ∃ f, out1 = some f ∧
      env.TTF_OpenFont ((strtol (d.drop 5)).2.drop 6)
        (long_to_int (strtol (d.drop 5)).1) = some f) ∨
    (r = 1 ∧ out1 = out ∧
      ∃ msg, (msg = "invalid font description" ∨ msg = env.TTF_GetError) ∧
        ax__set_error env.malloc_ok ax msg = Outcome.ret ax1 ∧
        ax1 = { ax with err_msg := some msg }) := by
  by_cases hv : "size:".toList <+: d ∧ ",path:".toList <+: (strtol (d.drop 5)).2
  · rw [ax__new_font_valid env ax d out hv.1 hv.2] at h
    cases hf : env.TTF_OpenFont ((strtol (d.drop 5)).2.drop 6)
        (long_to_int (strtol (d.drop 5)).1) with
    | some f =>
      rw [hf] at h
      simp only [Prod.mk.injEq, Outcome.ret.injEq] at h
      obtain ⟨-, hr, hax, hout⟩ := h
      exact Or.inl ⟨hr.symm, hax.symm, f, hout.symm, rfl⟩
    | none =>
      rw [hf] at h
      cases hm : env.malloc_ok with
      | false => simp [ax__set_error, hm] at h
      | true =>
        simp only [ax__set_error, hm, if_true, Prod.mk.injEq, Outcome.ret.injEq] at h
        obtain ⟨-, hr, hax, hout⟩ := h
        exact Or.inr ⟨hr.symm, hout.symm, env.TTF_GetError, Or.inr rfl,
          by simp [ax__set_error, hax], hax.symm⟩
  · have hinv : ¬ "size:".toList <+: d ∨ ¬ ",path:".toList <+: (strtol (d.drop 5)).2 := by
      by_cases h1 : "size:".toList <+: d
      · exact Or.inr (fun h2 => hv ⟨h1, h2⟩)
      · exact Or.inl h1
    rw [ax__new_font_invalid env ax d out hinv] at h
    cases hm : env.malloc_ok with
    | false => simp [ax__set_error, hm] at h
    | true =>
      simp only [ax__set_error, hm, if_true, Prod.mk.injEq, Outcome.ret.injEq] at h
      obtain ⟨-, hr, hax, hout⟩ := h
      exact Or.inr ⟨hr.symm, hout.symm, "invalid font description", Or.inl rfl,
        by simp [ax__set_error, hax], hax.symm⟩

/-- C8, counterexample: with the `malloc` inside `ax__set_error` failing, the
failing paths do not return 1.  `ax__new_backend` with a failing `SDL_Init`,
`ax__new_font` on a description without the "size:" head, and `ax__new_font`
with a failing `TTF_OpenFont` each abort through the assertion
"malloc ax_state.err_msg" of `ax__set_error`. -/
theorem failing_paths_abort_without_memory :
    ax__new_backend env_no_video_no_memory state0 none =
      ([Call.SDL_Init], Outcome.fatal "malloc ax_state.err_msg" []) ∧
    ax__new_font font_env_no_memory state1 "path:a.ttf".toList none =
      ([], Outcome.fatal "malloc ax_state.err_msg" []) ∧
    ax__new_font font_env_no_memory state1 "size:12,path:a.ttf".toList none =
      ([Call.TTF_OpenFont "a.ttf".toList 12],
       Outcome.fatal "malloc ax_state.err_msg" []) ∧
    ax__set_error false state1 "m" = Outcome.fatal "malloc ax_state.err_msg" [] :=
  ⟨by decide, by decide, by decide, by decide⟩

/-- C8, amended: captured errors are retrievable.  Whenever
`ax__set_error(s, m)` has returned, `ax_get_error` on the resulting state
gives `m`, whatever message was stored before and whatever the interpreter's
message is; it returns whenever its allocation succeeds.  `ax_get_error`
gives the state's own message when there is one, the interpreter's message
only when the state's is `NULL`, and `NULL` only when both are.  Whenever
`ax__new_backend` or `ax__new_font` returns non-zero it returns 1, with its
out pointer as it was on entry, after an `ax__set_error` whose message
`ax_get_error` then retrieves.  Every failing path of the two functions
returns in that way when the allocation inside `ax__set_error` succeeds; when
that allocation fails the path aborts through the assertion
"malloc ax_state.err_msg" instead of returning. -/
theorem ax_get_error_retrieves_captured_error :
    (∀ (malloc_ok : Bool) (s s1 : ax_state) (m : String),
      ax__set_error malloc_ok s m = Outcome.ret s1 → ax_get_error s1 = some m) ∧
    (∀ (s : ax_state) (m : String),
      ax__set_error true s m = Outcome.ret { s with err_msg := some m }) ∧
    (∀ s : ax_state,
      (s.err_msg ≠ none → ax_get_error s = s.err_msg) ∧
      (s.err_msg = none → ax_get_error s = s.interp_err_msg) ∧
      (ax_get_error s = none ↔ s.err_msg = none ∧ s.interp_err_msg = none)) ∧
    (∀ (env : backend_env) (ax : ax_state) (out : Option ax_backend) (calls : List Call)
        (r : Int) (ax1 : ax_state) (out1 : Option ax_backend),
      ax__new_backend env ax out = (calls, Outcome.ret (r, ax1, out1)) → r ≠ 0 →
      r = 1 ∧ out1 = out ∧
      ∃ msg, ax__set_error env.malloc_ok ax msg = Outcome.ret ax1 ∧
        ax_get_error ax1 = some msg) ∧
    (∀ (env : backend_env) (ax : ax_state) (out : Option ax_backend),
      env.malloc_ok = true →
      (env.SDL_Init ≠ 0 ∨ env.TTF_Init ≠ 0 ∨ env.SDL_CreateWindowAndRenderer ≠ 0 ∨
        env.SDL_SetRenderDrawBlendMode ≠ 0) →
      ∃ calls msg, (msg = env.SDL_GetError ∨ msg = env.TTF_GetError) ∧
        ax__new_backend env ax out =
          (calls, Outcome.ret (1, { ax with err_msg := some msg }, out))) ∧
    (∀ (env : font_env) (ax : ax_state) (d : List Char) (out : Option Nat)
        (calls : List Call) (r : Int) (ax1 : ax_state) (out1 : Option Nat),
      ax__new_font env ax d out = (calls, Outcome.ret (r, ax1, out1)) → r ≠ 0 →
      r = 1 ∧ out1 = out ∧
      ∃ msg, ax__set_error env.malloc_ok ax msg = Outcome.ret ax1 ∧
        ax_get_error ax1 = some msg) ∧
    (∀ (env : font_env) (ax : ax_state) (d : List Char) (out : Option Nat),
      env.malloc_ok = true →
      (¬ "size:".toList <+: d ∨ ¬ ",path:".toList <+: (strtol (d.drop 5)).2 ∨
        env.TTF_OpenFont ((strtol (d.drop 5)).2.drop 6)
          (long_to_int (strtol (d.drop 5)).1) = none) →
      ∃ calls msg, (msg = "invalid font description" ∨ msg = env.TTF_GetError) ∧
        ax__new_font env ax d out =
          (calls, Outcome.ret (1, { ax with err_msg := some msg }, out))) ∧
    (∀ (s : ax_state) (m : String),
      ax__set_error false s m = Outcome.fatal "malloc ax_state.err_msg" []) ∧
    (∀ (env : backend_env) (ax : ax_state) (out : Option ax_backend),
      env.malloc_ok = false →
      (env.SDL_Init ≠ 0 ∨ env.TTF_Init ≠ 0 ∨ env.SDL_CreateWindowAndRenderer ≠ 0 ∨
        env.SDL_SetRenderDrawBlendMode ≠ 0) →
      (ax__new_backend env ax out).2 = Outcome.fatal "malloc ax_state.err_msg" []) ∧
    (∀ (env : font_env) (ax : ax_state) (d : List Char) (out : Option Nat),
      env.malloc_ok = false →
      (¬ "size:".toList <+: d ∨ ¬ ",path:".toList <+: (strtol (d.drop 5)).2 ∨
        env.TTF_OpenFont ((strtol (d.drop 5)).2.drop 6)
          (long_to_int (strtol (d.drop 5)).1) = none) →
      (ax__new_font env ax d out).2 = Outcome.fatal "malloc ax_state.err_msg" []) := by
  refine ⟨?_, ?_, ?_, ?_, ?_, ?_, ?_, ?_, ?_, ?_⟩
  · intro malloc_ok s s1 m h
    cases malloc_ok with
    | false => simp [ax__set_error] at h
    | true =>
      simp only [ax__set_error, if_true, Outcome.ret.injEq] at h
      simp [ax_get_error, ← h]
  · intro s m
    simp [ax__set_error]
  · intro s
    cases h1 : s.err_msg <;> cases h2 : s.interp_err_msg <;> simp [ax_get_error, h1, h2]
  · intro env ax out calls r ax1 out1 h hr
    rcases ax__new_backend_ret env ax out calls r ax1 out1 h with
      ⟨h0, -⟩ | ⟨h1, hout, -, msg, -, hset, hax⟩
    · exact absurd h0 hr
    · exact ⟨h1, hout, msg, hset, by simp [ax_get_error, hax]⟩
  · intro env ax out hm hfail
    rcases hnb : ax__new_backend env ax out with ⟨calls, res⟩
    cases res with
    | fatal fmt args =>
      have hf : (ax__new_backend env ax out).2 = Outcome.fatal fmt args := by rw [hnb]
      exact absurd hf (ax__new_backend_not_fatal env ax out hm fmt args)
    | ret v =>
      obtain ⟨r, ax1, out1⟩ := v
      rcases ax__new_backend_ret env ax out calls r ax1 out1 hnb with
        ⟨-, -, -, i1, i2, i3, i4⟩ | ⟨h1, hout, -, msg, hmsg, -, hax⟩
      · rcases hfail with h | h | h | h
        · exact absurd i1 h
        · exact absurd i2 h
        · exact absurd i3 h
        · exact absurd i4 h
      · exact ⟨calls, msg, hmsg, by rw [h1, hout, hax]⟩
  · intro env ax d out calls r ax1 out1 h hr
    rcases ax__new_font_ret env ax d out calls r ax1 out1 h with
      ⟨h0, -⟩ | ⟨h1, hout, msg, -, hset, hax⟩
    · exact absurd h0 hr
    · exact ⟨h1, hout, msg, hset, by simp [ax_get_error, hax]⟩
  · intro env ax d out hm hfail
    by_cases hv : "size:".toList <+: d ∧ ",path:".toList <+: (strtol (d.drop 5)).2
    · have hnone : env.TTF_OpenFont ((strtol (d.drop 5)).2.drop 6)
          (long_to_int (strtol (d.drop 5)).1) = none := by
        rcases hfail with h | h | h
        · exact absurd hv.1 h
        · exact absurd hv.2 h
        · exact h
      refine ⟨[Call.TTF_OpenFont ((strtol (d.drop 5)).2.drop 6)
        (long_to_int (strtol (d.drop 5)).1)], env.TTF_GetError, Or.inr rfl, ?_⟩
      rw [ax__new_font_valid env ax d out hv.1 hv.2, hnone]
      simp only [ax__set_error, hm, if_true]
    · have hinv : ¬ "size:".toList <+: d ∨ ¬ ",path:".toList <+: (strtol (d.drop 5)).2 := by
        by_cases h1 : "size:".toList <+: d
        · exact Or.inr (fun h2 => hv ⟨h1, h2⟩)
        · exact Or.inl h1
      refine ⟨[], "invalid font description", Or.inl rfl, ?_⟩
      rw [ax__new_font_invalid env ax d out hinv]
      simp only [ax__set_error, hm, if_true]
  · intro s m
    simp [ax__set_error]
  · intro env ax out hm hfail
    unfold ax__new_backend new_backend_err
    simp only [ax__set_error, hm, Bool.false_eq_true, if_false]
    split_ifs <;> simp_all
  · intro env ax d out hm hfail
    by_cases hv : "size:".toList <+: d ∧ ",path:".toList <+: (strtol (d.drop 5)).2
    · have hnone : env.TTF_OpenFont ((strtol (d.drop 5)).2.drop 6)
          (long_to_int (strtol (d.drop 5)).1) = none := by
        rcases hfail with h | h | h
        · exact absurd hv.1 h
        · exact absurd hv.2 h
        · exact h
      rw [ax__new_font_valid env ax d out hv.1 hv.2, hnone]
      simp only [ax__set_error, hm, Bool.false_eq_true, if_false]
    · have hinv : ¬ "size:".toList <+: d ∨ ¬ ",path:".toList <+: (strtol (d.drop 5)).2 := by
        by_cases h1 : "size:".toList <+: d
        · exact Or.inr (fun h2 => hv ⟨h1, h2⟩)
        · exact Or.inl h1
      rw [ax__new_font_invalid env ax d out hinv]
      simp only [ax__set_error, hm, Bool.false_eq_true, if_false]

/-- Witness for C8: a failing `TTF_OpenFont` on a state that already holds a
message, with an interpreter message present as well: the call returns 1, the
out pointer keeps its old value, and `ax_get_error` gives the library's
message. -/
theorem ax_get_error_retrieves_captured_error_witness :
    ax__new_font font_env_missing
        { state1 with err_msg := some "old", interp_err_msg := some "interp" }
        "size:12,path:a.ttf".toList (some 5) =
      ([Call.TTF_OpenFont "a.ttf".toList 12],
       Outcome.ret (1, { state1 with err_msg := some "Couldn't open a.ttf",
                                     interp_err_msg := some "interp" }, some 5)) ∧
    ax_get_error { state1 with err_msg := some "Couldn't open a.ttf",
                               interp_err_msg := some "interp" } =
      some "Couldn't open a.ttf" :=
  ⟨by decide,
   ax_get_error_retrieves_captured_error.1 true
     { state1 with err_msg := some "old", interp_err_msg := some "interp" } _
     "Couldn't open a.ttf" (by decide)⟩

/-- C10, amended: `ax__new_font` accepts only descriptions of the form
"size:<N>,path:<PATH>".  For every description that does not begin with
"size:", or in which the text left by `strtol` at offset 5 does not begin with
",path:", it opens no font and, when the allocation inside `ax__set_error`
succeeds, returns 1 with the message "invalid font description" and the out
pointer unwritten.  For every other description it makes exactly one
`TTF_OpenFont` call, on the text after ",path:" and at the point size obtained
by converting the `long` that `strtol` read to `int`; it returns 0 with the
font stored when the call succeeds, and 1 with the library's message and the
out pointer unwritten when it fails.  The point size is the number read
whenever that fits in a 32-bit `int`.  In particular, for a description made
of "size:", a non-empty run of decimal digits, ",path:" and a path, the font
is opened on that path at the value of the digits, clamped to `LONG_MAX` and
converted to `int`. -/
theorem ax__new_font_reads_size_and_path (env : font_env) (ax : ax_state)
    (d : List Char) (out : Option Nat) :
    ((¬ "size:".toList <+: d ∨ ¬ ",path:".toList <+: (strtol (d.drop 5)).2) →
      (ax__new_font env ax d out).1 = [] ∧
      (env.malloc_ok = true →
        (ax__new_font env ax d out).2 =
          Outcome.ret (1, { ax with err_msg := some "invalid font description" }, out)) ∧
      (env.malloc_ok = false →
        (ax__new_font env ax d out).2 = Outcome.fatal "malloc ax_state.err_msg" [])) ∧
    ("size:".toList <+: d → ",path:".toList <+: (strtol (d.drop 5)).2 →
      (ax__new_font env ax d out).1 =
        [Call.TTF_OpenFont ((strtol (d.drop 5)).2.drop 6)
          (long_to_int (strtol (d.drop 5)).1)] ∧
      (∀ f, env.TTF_OpenFont ((strtol (d.drop 5)).2.drop 6)
          (long_to_int (strtol (d.drop 5)).1) = some f →
        (ax__new_font env ax d out).2 = Outcome.ret (0, ax, some f)) ∧
      (env.TTF_OpenFont ((strtol (d.drop 5)).2.drop 6)
          (long_to_int (strtol (d.drop 5)).1) = none →
        env.malloc_ok = true →
        (ax__new_font env ax d out).2 =
          Outcome.ret (1, { ax with err_msg := some env.TTF_GetError }, out))) ∧
    (-(2 ^ 31) ≤ (strtol (d.drop 5)).1 → (strtol (d.drop 5)).1 < 2 ^ 31 →
      long_to_int (strtol (d.drop 5)).1 = (strtol (d.drop 5)).1) ∧
    (∀ ds path : List Char, ds ≠ [] → (∀ c ∈ ds, isdigit c = true) →
      d = "size:".toList ++ ds ++ ",path:".toList ++ path →
      (ax__new_font env ax d out).1 =
        [Call.TTF_OpenFont path (long_to_int
          (min LONG_MAX ((ds.foldl (fun a c => a * 10 + (c.toNat - 48)) 0 : Nat) : Int)))]) := by
  refine ⟨?_, ?_, ?_, ?_⟩
  · intro hinv
    rw [ax__new_font_invalid env ax d out hinv]
    cases hm : env.malloc_ok <;> simp [ax__set_error]
  · intro h1 h2
    rw [ax__new_font_valid env ax d out h1 h2]
    cases hf : env.TTF_OpenFont ((strtol (d.drop 5)).2.drop 6)
        (long_to_int (strtol (d.drop 5)).1) with
    | some f => simp
    | none => cases hm : env.malloc_ok <;> simp [ax__set_error]
  · intro hlo hhi
    unfold long_to_int
    omega
  · intro ds path hne hds hd
    have hdrop : d.drop 5 = ds ++ (",path:".toList ++ path) := by
      rw [hd]
      simp [String.toList]
    have hst := strtol_of_digits ds (",path:".toList ++ path) hne hds (by
      intro c hc
      simp only [String.toList, List.cons_append, List.head?_cons, Option.some.injEq] at hc
      rw [← hc]
      decide)
    have h1 : "size:".toList <+: d := ⟨ds ++ ",path:".toList ++ path, by rw [hd]; simp⟩
    have h2 : ",path:".toList <+: (strtol (d.drop 5)).2 := by
      rw [hdrop, hst]
      exact ⟨path, rfl⟩
    rw [ax__new_font_valid env ax d out h1 h2, hdrop, hst]
    have h6 : List.drop 6 (",path:".toList ++ path) = path := by
      simp [String.toList]
    simp only [h6]
    cases env.TTF_OpenFont path (long_to_int
      (min LONG_MAX ((ds.foldl (fun a c => a * 10 + (c.toNat - 48)) 0 : Nat) : Int))) with
    | some f => rfl
    | none => cases hm : env.malloc_ok <;> simp [ax__set_error]

/-- Witness for C10: "size:12,path:a.ttf" opens a.ttf at point size 12 and
stores the font; a description without the "size:" head opens nothing. -/
theorem ax__new_font_reads_size_and_path_witness :
    ax__new_font font_env_ok state1 "size:12,path:a.ttf".toList none =
      ([Call.TTF_OpenFont "a.ttf".toList 12], Outcome.ret (0, state1, some 7)) ∧
    ax__new_font font_env_ok state1 "path:a.ttf".toList none =
      ([], Outcome.ret (1, { state1 with err_msg := some "invalid font description" }, none)) ∧
    (ax__new_font font_env_ok state1 "size:12,path:a.ttf".toList none).1 =
      [Call.TTF_OpenFont "a.ttf".toList (long_to_int
        (min LONG_MAX (("12".toList.foldl (fun a c => a * 10 + (c.toNat - 48)) 0 : Nat) : Int)))] :=
  ⟨by decide, by decide,
   (ax__new_font_reads_size_and_path font_env_ok state1 "size:12,path:a.ttf".toList none).2.2.2
     "12".toList "a.ttf".toList (by decide) (by decide) (by decide)⟩

end Ax
